import Mathlib

/-!
# Verification of the Parse rate limiter (src/index.js)

A shallow embedding of the `ParseRateLimiter` constructor from `src/index.js`.
The instance state is the fields stored on `self` plus the closure variables
(`finalizedPromise`, `timer`, `savePromise`).  Asynchrony is made explicit as a
small event semantics: a scheduled timeout firing and an in-flight batch save
settling are separate events acting on the state.

Promise model.  `savePromise` in the source is always
`saveInBatches(toSave).fail(errHandler)`: when the underlying batch save
rejects, `errHandler` runs and returns `undefined`, so the chained promise
RESOLVES (old-style `Parse.Promise.fail` is `then(null, handler)` and a handler
returning a plain value resolves the result).  Hence `savePromise` can settle
only by resolving, which the model reflects.  Settling an already-settled
`Parse.Promise` throws inside the SDK without changing the promise; the model
leaves the promise unchanged in that case.
-/

namespace PRL

/-- A JavaScript value as far as this module inspects one: a `Parse.Object`
(carrying an identity), or one of the other values callers can pass. -/
inductive JSValue where
  | parseObject (id : Nat)
  | str (s : String)
  | nullV
  | undef
  | boolV (b : Bool)
  | numV (n : Int)
deriving DecidableEq, Repr

/-- JavaScript truthiness of a `JSValue`. -/
def truthy : JSValue → Bool
  | .parseObject _ => true
  | .str s => !s.isEmpty
  | .nullV => false
  | .undef => false
  | .boolV b => b
  | .numV n => n != 0

/-- `object instanceof Parse.Object`. -/
def isParseObject : JSValue → Bool
  | .parseObject _ => true
  | _ => false

/-- The state of the closure variable `finalizedPromise`: a `Parse.Promise`
created by `finalize`, later resolved or rejected. -/
inductive FPState where
  | pending
  | resolved
  | rejected (e : Nat)
deriving DecidableEq, Repr

/-- The state of the closure variable `savePromise`, i.e. of
`saveInBatches(toSave).fail(errHandler)`.  While the batch save is in flight it
records the dispatched slice and whether the queue-emptied branch of the tick
attached the continuation that resolves `finalizedPromise` on success.  Once
settled it is resolved (see the promise model above). -/
inductive SPState where
  | inFlight (items : List JSValue) (notify : Bool)
  | resolved
deriving DecidableEq, Repr

/-- Errors thrown synchronously by `save` / `saveAll`, one constructor per
`throw new Error(...)` message in the source:
`notParseObjectSave` = "save must accept a Parse Object",
`notAnArray` = "saveAll must accept an array of objects",
`itemNotParseObject` = "Cannot process item that is not a Parse object". -/
inductive SaveError where
  | notParseObjectSave
  | notAnArray
  | itemNotParseObject
deriving DecidableEq, Repr

/-- A runtime error thrown by the JavaScript engine itself. -/
inductive JsError where
  | typeError
deriving DecidableEq, Repr

instance {ε α : Type} [DecidableEq ε] [DecidableEq α] :
    DecidableEq (Except ε α) := fun a b =>
  match a, b with
  | .error e, .error f => decidable_of_iff (e = f) (by simp)
  | .error _, .ok _ => isFalse (by simp)
  | .ok _, .error _ => isFalse (by simp)
  | .ok x, .ok y => decidable_of_iff (x = y) (by simp)

/-- Instance state: the fields stored on `self` (`_maxRate`, `_killSwitch`,
`_saveQueue`, `_error`) and the closure variables.  The `timer` variable is
split into `timerVar` (the variable holds a truthy timeout handle — possibly a
stale one, since `clearTimeout` does not null the variable) and `timerPending`
(a timeout is actually scheduled to fire).  Backend errors are identified by a
`Nat`. -/
structure LimiterState where
  maxRate : Nat
  killSwitch : Bool
  saveQueue : List JSValue
  storedError : Option Nat
  finalizedPromise : Option FPState
  timerVar : Bool
  timerPending : Bool
  savePromise : Option SPState
deriving DecidableEq, Repr

/-- `new ParseRateLimiter(maxRate)`. -/
def initState (maxRate : Nat) : LimiterState :=
  { maxRate := maxRate
    killSwitch := false
    saveQueue := []
    storedError := none
    finalizedPromise := none
    timerVar := false
    timerPending := false
    savePromise := none }

/-- `errHandler(err)`: the halt procedure.  `clearTimeout(timer)` cancels the
scheduled tick but leaves the `timer` variable itself untouched.  Rejecting an
already-settled `finalizedPromise` would throw inside the SDK without changing
it; the model leaves it unchanged. -/
def errHandler (s : LimiterState) (err : Nat) : LimiterState :=
  if s.killSwitch then s
  else
    let s1 : LimiterState :=
      { s with timerPending := false, killSwitch := true, saveQueue := [] }
    match s1.finalizedPromise with
    | some .pending => { s1 with finalizedPromise := some (.rejected err) }
    | some _ => s1
    | none => { s1 with storedError := some err }

/-- The loop of `saveInBatches`, embedded with a fuel argument so that the
definition stays kernel-reducible: each iteration consumes at least one
element, so any fuel of at least the list length runs the loop to the end
(`saveInBatchesGo_fuel` below); the zero-fuel case with a non-empty list is
never reached from `saveInBatches`. -/
def saveInBatchesGo {α : Type} : Nat → List α → List (List α)
  | _, [] => []
  | 0, _ :: _ => []
  | fuel + 1, x :: xs =>
    ((x :: xs).take 10) :: saveInBatchesGo fuel ((x :: xs).drop 10)

/-- `saveInBatches(objects)`: the while loop lops off `_.first(objects, 10)`
and continues on `_.rest(objects, 10)`, collecting one backend save per
sub-batch. -/
def saveInBatches {α : Type} (objects : List α) : List (List α) :=
  saveInBatchesGo objects.length objects

/-- The settled outcome of `Parse.Promise.when` over the per-sub-batch backend
saves: the first error among the sub-batch results, if any.  `backend` models
`Parse.Object.saveAll` on one sub-batch (`none` = success). -/
def joinedResult (backend : List JSValue → Option Nat) (items : List JSValue) :
    Option Nat :=
  ((saveInBatches items).filterMap backend).head?

/-- Reading `self.killswitch` in the tick guard: the flag is stored under
`_killSwitch` and nothing ever assigns a `killswitch` field, so the property
read yields `undefined`, which is falsy as a condition. -/
def killswitch (_s : LimiterState) : Bool := false

/-- `rateLimiter()`: the body of one pacing tick.  The caller (the timeout
firing) has already consumed the scheduled timeout.  The dispatched slice
becomes an in-flight `savePromise`; when the removal empties the queue the
tick nulls `timer` and, when a `finalizedPromise` exists, attaches the
resolve-on-success continuation to the just-issued dispatch; otherwise it
re-arms the timeout. -/
def rateLimiterTick (s : LimiterState) : LimiterState :=
  if killswitch s then s
  else if s.saveQueue.isEmpty then
    if s.timerVar then { s with timerVar := false } else s
  else
    let toSave := s.saveQueue.take s.maxRate
    let rest := s.saveQueue.drop s.maxRate
    if rest.isEmpty then
      { s with saveQueue := rest
               timerVar := false
               savePromise := some (.inFlight toSave s.finalizedPromise.isSome) }
    else
      { s with saveQueue := rest
               timerVar := true
               timerPending := true
               savePromise := some (.inFlight toSave false) }

/-- The in-flight batch save settles.  On failure `errHandler` runs and the
`.fail` chain resolves `savePromise`; the resolve-on-success continuation (if
attached) then fires on the resolved promise and calls
`finalizedPromise.resolve()`, which on the just-rejected promise throws inside
the SDK without changing it.  On success `savePromise` resolves and the
continuation (if attached) resolves a pending `finalizedPromise`. -/
def dispatchComplete (backend : List JSValue → Option Nat) (s : LimiterState) :
    LimiterState :=
  match s.savePromise with
  | some (.inFlight items notify) =>
    match joinedResult backend items with
    | some err => { errHandler s err with savePromise := some .resolved }
    | none =>
      let s1 : LimiterState := { s with savePromise := some .resolved }
      if notify then
        match s1.finalizedPromise with
        | some .pending => { s1 with finalizedPromise := some .resolved }
        | _ => s1
      else s1
  | _ => s

/-- `self._startTimer()`: `timer = timer || setTimeout(...)` — schedules a
zero-delay tick only when the `timer` variable is falsy. -/
def startTimer (s : LimiterState) : LimiterState :=
  if s.timerVar then s
  else { s with timerVar := true, timerPending := true }

/-- `self.save(object)`: throws unless the argument is a `Parse.Object`,
otherwise pushes it onto the queue.  Returns the post-call state and the
thrown error, if any. -/
def save (s : LimiterState) (v : JSValue) : LimiterState × Option SaveError :=
  if isParseObject v then
    ({ s with saveQueue := s.saveQueue ++ [v] }, none)
  else (s, some .notParseObjectSave)

/-- The argument of `saveAll`: an array of values, or some non-array value. -/
inductive SaveAllInput where
  | arr (vs : List JSValue)
  | nonArray (v : JSValue)
deriving DecidableEq, Repr

/-- `self.saveAll(objects)`.  `inputError` is set when the argument is not an
array; then `_.find(objects, not-a-Parse.Object)` runs and, when the FOUND
VALUE is truthy, overwrites `inputError`; the function throws if `inputError`
is set and only then concatenates onto the queue.  For a non-array argument
underscore iterates a nonempty string as an array-like of characters (each a
truthy non-`Parse.Object`), and yields `undefined` for the other non-array
values, so the thrown message differs but the call always throws before any
mutation. -/
def saveAll (s : LimiterState) (input : SaveAllInput) :
    LimiterState × Option SaveError :=
  match input with
  | .nonArray v =>
    match v with
    | .str t => if t.isEmpty then (s, some .notAnArray)
                else (s, some .itemNotParseObject)
    | _ => (s, some .notAnArray)
  | .arr vs =>
    match vs.find? (fun v => ! isParseObject v) with
    | some w =>
      if truthy w then (s, some .itemNotParseObject)
      else ({ s with saveQueue := s.saveQueue ++ vs }, none)
    | none => ({ s with saveQueue := s.saveQueue ++ vs }, none)

/-- What `self.finalize()` hands back to the caller:
`errorNow e` is `Parse.Promise.error(self._error)`;
`completionHandle` is the freshly created `finalizedPromise`;
`chainedOnSave sp` is `savePromise.then(=> Parse.Promise.as())` with
`savePromise` in state `sp` at the time of the call (since `savePromise` can
settle only by resolving, this outcome always eventually succeeds). -/
inductive FinalizeOutcome where
  | errorNow (e : Nat)
  | completionHandle
  | chainedOnSave (sp : SPState)
deriving DecidableEq, Repr

/-- `self.finalize()`.  When `_error` is set, return it as a failed promise.
When the queue is non-empty, start the timer and create (overwriting any
previous) `finalizedPromise`.  Otherwise return `savePromise.then(...)` —
which, when no dispatch was ever issued, reads `.then` of `undefined` and
throws a `TypeError`. -/
def finalize (s : LimiterState) :
    Except JsError (FinalizeOutcome × LimiterState) :=
  match s.storedError with
  | some e => .ok (.errorNow e, s)
  | none =>
    if s.saveQueue.isEmpty then
      match s.savePromise with
      | none => .error .typeError
      | some sp => .ok (.chainedOnSave sp, s)
    else
      let s1 := startTimer s
      .ok (.completionHandle, { s1 with finalizedPromise := some .pending })

/-- The externally triggered events driving an instance. -/
inductive Event where
  | save (v : JSValue)
  | saveAll (input : SaveAllInput)
  | finalize
  | tickFire
  | dispatchComplete
deriving DecidableEq, Repr

/-- One event acting on the state.  A timeout can fire only when one is
scheduled; firing consumes it before the tick body runs.  A batch save can
settle only while one is in flight (otherwise the event changes nothing). -/
def step (backend : List JSValue → Option Nat) (s : LimiterState) :
    Event → LimiterState
  | .save v => (save s v).1
  | .saveAll input => (saveAll s input).1
  | .finalize =>
    match finalize s with
    | .ok (_, s1) => s1
    | .error _ => s
  | .tickFire =>
    if s.timerPending then rateLimiterTick { s with timerPending := false }
    else s
  | .dispatchComplete => dispatchComplete backend s

/-- Run a sequence of events from a fresh instance. -/
def run (backend : List JSValue → Option Nat) (maxRate : Nat)
    (events : List Event) : LimiterState :=
  events.foldl (step backend) (initState maxRate)

/-- A backend whose every sub-batch save fails with error 1 (the scenario
error `E1`). -/
def failBackend : List JSValue → Option Nat := fun _ => some 1

/-- A backend whose every sub-batch save succeeds. -/
def okBackend : List JSValue → Option Nat := fun _ => none

/-- Number of pacing ticks needed to drain `n` items at `r` per tick:
the ceiling of `n / r`. -/
def ticksToDrain (n r : Nat) : Nat := (n + r - 1) / r

end PRL

namespace PRL

/-- Items `A`, `B`, `C` of the spec scenarios. -/
def objA : JSValue := .parseObject 1

def objB : JSValue := .parseObject 2

def objC : JSValue := .parseObject 3

/-- The failing scenario of the spec: `maxRate = 10`, enqueue `A` and `B`,
call `finalize` (arms the zero-delay tick and creates `finalizedPromise`), the
tick dispatches the whole queue, and the only sub-batch fails with error 1. -/
def haltTrace : List Event :=
  [.save objA, .save objB, .finalize, .tickFire, .dispatchComplete]

/-- The instance state after `haltTrace`: halted, queue cleared,
`finalizedPromise` rejected with error 1, no stored error. -/
def haltedState : LimiterState := run failBackend 10 haltTrace

/-- The state of the same scenario just before the failing dispatch settles. -/
def preHaltState : LimiterState :=
  run failBackend 10 [.save objA, .save objB, .finalize, .tickFire]

/-- The drain scenario of the spec: `maxRate = 2` with five queued items. -/
def drainState : LimiterState :=
  { initState 2 with
      saveQueue := [objA, objB, objC, .parseObject 4, .parseObject 5] }

end PRL

namespace PRL

/-- Any two sufficient fuels run the `saveInBatches` loop identically. -/
theorem saveInBatchesGo_fuel {α : Type} :
    ∀ (f g : Nat) (l : List α), l.length ≤ f → l.length ≤ g →
      saveInBatchesGo f l = saveInBatchesGo g l := by
  intro f
  induction f with
  | zero =>
    intro g l hf _
    have hl : l = [] := List.eq_nil_of_length_eq_zero (Nat.le_zero.mp hf)
    subst hl
    cases g <;> rfl
  | succ f ih =>
    intro g l hf hg
    cases l with
    | nil => cases g <;> rfl
    | cons x xs =>
      cases g with
      | zero => simp at hg
      | succ g =>
        simp only [saveInBatchesGo]
        rw [ih g ((x :: xs).drop 10)
          (by simp only [List.length_drop, List.length_cons] at *; omega)
          (by simp only [List.length_drop, List.length_cons] at *; omega)]

/-- The one-step unfolding of `saveInBatches` on a non-empty list. -/
theorem saveInBatches_cons {α : Type} (l : List α) (h : l ≠ []) :
    saveInBatches l = l.take 10 :: saveInBatches (l.drop 10) := by
  cases l with
  | nil => exact absurd rfl h
  | cons x xs =>
    show saveInBatchesGo (xs.length + 1) (x :: xs) = _
    simp only [saveInBatchesGo]
    rw [saveInBatchesGo_fuel xs.length ((x :: xs).drop 10).length
      ((x :: xs).drop 10)
      (by simp only [List.length_drop, List.length_cons]; omega) (Nat.le_refl _)]
    rfl

/-- `errHandler` returns immediately once the kill switch is set. -/
theorem errHandler_of_killSwitch (s : LimiterState) (e : Nat)
    (h : s.killSwitch = true) : errHandler s e = s := by
  simp [errHandler, h]

/-- Whatever the starting state, `errHandler` leaves the kill switch set. -/
theorem errHandler_killSwitch (s : LimiterState) (e : Nat) :
    (errHandler s e).killSwitch = true := by
  by_cases hks : s.killSwitch
  · simp [errHandler, hks]
  · simp only [errHandler, hks, Bool.false_eq_true, if_false]
    cases hfp : s.finalizedPromise with
    | none => rfl
    | some fp => cases fp <;> rfl

/-- C1.  The claim "for every reachable state in which halted is true, a
pacing tick that fires performs no work" fails on the code: the tick guards on
`self.killswitch`, a property that is never assigned (the flag lives in
`_killSwitch`), so the guard never fires.  Concretely: after the instance
halts, `save` still appends (it has no halt check) and a second `finalize`
re-arms the timer, so the next tick fires in a halted state, removes the item
from the queue and dispatches a batch to the backend. -/
theorem C1_halted_tick_dispatches :
    (run failBackend 10 (haltTrace ++ [.save objC, .finalize])).killSwitch
      = true
    ∧ (run failBackend 10 (haltTrace ++ [.save objC, .finalize])).timerPending
      = true
    ∧ (run failBackend 10 (haltTrace ++ [.save objC, .finalize])).saveQueue
      = [objC]
    ∧ (step failBackend
        (run failBackend 10 (haltTrace ++ [.save objC, .finalize]))
        .tickFire).saveQueue = []
    ∧ (step failBackend
        (run failBackend 10 (haltTrace ++ [.save objC, .finalize]))
        .tickFire).savePromise = some (.inFlight [objC] true) := by
  decide

/-- C2, counterexample.  In the spec scenario (`maxRate = 10`, enqueue `A, B`,
the only sub-batch fails with error 1 after `finalize` was called), the
pending `finalizedPromise` is rejected with error 1, but a subsequent
`finalize` does NOT fail with error 1 again: `errHandler` did not store the
error (the promise existed), so `finalize` falls through to the empty-queue
branch and returns the already-resolved `savePromise` chain — a successful
outcome. -/
theorem C2_subsequent_finalize_not_failed :
    haltedState.killSwitch = true
    ∧ haltedState.finalizedPromise = some (.rejected 1)
    ∧ haltedState.storedError = none
    ∧ finalize haltedState = .ok (.chainedOnSave .resolved, haltedState)
    ∧ ¬ finalize haltedState = .ok (.errorNow 1, haltedState) := by
  decide

/-- C2, amended.  If a backend failure with error `e` halts the instance after
`finalize` was called (so the pending completion request is rejected with
`e`), then every subsequent call to `finalize` produces a successful,
already-resolved outcome — not a failure with `e`.  (`finalize` leaves the
state unchanged in this branch, so all subsequent calls return the same
outcome.) -/
theorem C2_finalize_after_halt_succeeds (s : LimiterState)
    (backend : List JSValue → Option Nat) (items : List JSValue) (e : Nat)
    (hks : s.killSwitch = false)
    (hst : s.storedError = none)
    (hfp : s.finalizedPromise = some .pending)
    (hsp : s.savePromise = some (.inFlight items true))
    (hjr : joinedResult backend items = some e) :
    (dispatchComplete backend s).finalizedPromise = some (.rejected e)
    ∧ finalize (dispatchComplete backend s)
      = .ok (.chainedOnSave .resolved, dispatchComplete backend s) := by
  simp only [dispatchComplete, hsp, hjr, errHandler, hks, hfp]
  simp [finalize, hst]

/-- C2, witness for the amended theorem at the spec scenario. -/
theorem C2_finalize_after_halt_succeeds_witness :
    (dispatchComplete failBackend preHaltState).finalizedPromise
      = some (.rejected 1)
    ∧ finalize (dispatchComplete failBackend preHaltState)
      = .ok (.chainedOnSave .resolved, dispatchComplete failBackend preHaltState) :=
  C2_finalize_after_halt_succeeds preHaltState failBackend [objA, objB] 1
    (by decide) (by decide) (by decide) (by decide) (by decide)

/-- C3.  Calling `finalize` on a fresh instance (empty queue, no stored
error, no dispatch ever issued) does not return an already-successful
outcome: the empty-queue branch evaluates `savePromise.then(...)` with
`savePromise` still `undefined`, which throws a `TypeError`. -/
theorem C3_finalize_fresh_throws :
    (initState 10).saveQueue = []
    ∧ (initState 10).storedError = none
    ∧ (initState 10).savePromise = none
    ∧ finalize (initState 10) = .error .typeError := by
  decide

/-- C5.  An array element that fails the Item contract but is falsy slips
through `saveAll`: `_.find` returns the offending element itself and the code
tests the FOUND VALUE for truthiness (`if(notParseObject)`), so for `[null]`
no error is raised and `null` is appended to the queue. -/
theorem C5_falsy_non_item_slips_through :
    isParseObject .nullV = false
    ∧ saveAll (initState 5) (.arr [.nullV])
      = ({ initState 5 with saveQueue := [.nullV] }, none) := by
  decide

/-- C10, counterexample.  On the (reachable) halted state of the spec
scenario, `save` with a valid item neither fails nor is a no-op: it succeeds
and appends the item, so the state changes and the queue does not stay
empty. -/
theorem C10_save_on_halted_not_noop :
    haltedState.killSwitch = true
    ∧ haltedState.saveQueue = []
    ∧ (save haltedState objC).2 = none
    ∧ (save haltedState objC).1.saveQueue = [objC]
    ∧ ¬ (save haltedState objC).1 = haltedState := by
  decide

/-- C10, amended.  For every instance in the halted state, a subsequent call
to `save` with a valid Item succeeds and appends the item to the tail of the
queue (the queue does not stay empty): `save` has no halt check. -/
theorem C10_save_on_halted_appends (s : LimiterState) (v : JSValue)
    (_hks : s.killSwitch = true) (hv : isParseObject v = true) :
    save s v = ({ s with saveQueue := s.saveQueue ++ [v] }, none) := by
  simp [save, hv]

/-- C10, witness for the amended theorem. -/
theorem C10_save_on_halted_appends_witness :
    save haltedState objC
      = ({ haltedState with saveQueue := haltedState.saveQueue ++ [objC] },
         none) :=
  C10_save_on_halted_appends haltedState objC (by decide) (by decide)

end PRL

namespace PRL

/-- C4.  `saveAll` is all-or-nothing: whenever the call throws (non-array
argument, or a truthy non-`Parse.Object` element found), the instance state
is exactly as it was before the call — the queue concatenation is only
reached after the `inputError` throw. -/
theorem C4_saveAll_failure_is_all_or_nothing (s : LimiterState)
    (input : SaveAllInput) (e : SaveError)
    (h : (saveAll s input).2 = some e) : (saveAll s input).1 = s := by
  cases input with
  | nonArray v =>
    cases v <;> simp only [saveAll] <;> first
      | rfl
      | (split <;> rfl)
  | arr vs =>
    cases hf : vs.find? (fun v => ! isParseObject v) with
    | none =>
      simp only [saveAll, hf] at h
      exact Option.noConfusion h
    | some w =>
      cases ht : truthy w with
      | true => simp only [saveAll, hf, ht, if_true]
      | false =>
        simp only [saveAll, hf, ht, Bool.false_eq_true, if_false] at h
        exact Option.noConfusion h

/-- C4, witness: the spec scenario `saveAll([A, true, B])` with a truthy
non-Item element throws and leaves the state untouched. -/
theorem C4_saveAll_failure_is_all_or_nothing_witness :
    (saveAll (initState 5) (.arr [objA, .boolV true, objB])).2
      = some .itemNotParseObject
    ∧ (saveAll (initState 5) (.arr [objA, .boolV true, objB])).1
      = initState 5 :=
  ⟨by decide,
   C4_saveAll_failure_is_all_or_nothing (initState 5)
     (.arr [objA, .boolV true, objB]) .itemNotParseObject (by decide)⟩

/-- C6.  The first invocation of `errHandler` with error `e` on a non-halted
instance cancels the scheduled tick, sets the kill switch, clears the queue,
and either rejects a pending `finalizedPromise` with `e` while leaving
`_error` untouched, or (when no `finalizedPromise` exists) stores `e` in
`_error`. -/
theorem C6_first_halt (s : LimiterState) (e : Nat)
    (hks : s.killSwitch = false) :
    (errHandler s e).timerPending = false
    ∧ (errHandler s e).killSwitch = true
    ∧ (errHandler s e).saveQueue = []
    ∧ (s.finalizedPromise = some .pending →
        (errHandler s e).finalizedPromise = some (.rejected e)
        ∧ (errHandler s e).storedError = s.storedError)
    ∧ (s.finalizedPromise = none →
        (errHandler s e).storedError = some e
        ∧ (errHandler s e).finalizedPromise = none) := by
  simp only [errHandler, hks, Bool.false_eq_true, if_false]
  cases hfp : s.finalizedPromise with
  | none => simp [hfp]
  | some fp => cases fp <;> simp [hfp]

/-- C6, witness: a non-halted instance with a pending `finalizedPromise`, an
armed tick and a queued item, halted with error 7. -/
theorem C6_first_halt_witness :
    (errHandler
      { initState 3 with
          saveQueue := [objA]
          finalizedPromise := some .pending
          timerVar := true
          timerPending := true } 7).timerPending = false
    ∧ (errHandler
      { initState 3 with
          saveQueue := [objA]
          finalizedPromise := some .pending
          timerVar := true
          timerPending := true } 7).killSwitch = true
    ∧ (errHandler
      { initState 3 with
          saveQueue := [objA]
          finalizedPromise := some .pending
          timerVar := true
          timerPending := true } 7).saveQueue = []
    ∧ (errHandler
      { initState 3 with
          saveQueue := [objA]
          finalizedPromise := some .pending
          timerVar := true
          timerPending := true } 7).finalizedPromise
      = some (.rejected 7) := by
  have h := C6_first_halt
    { initState 3 with
        saveQueue := [objA]
        finalizedPromise := some .pending
        timerVar := true
        timerPending := true } 7 (by decide)
  exact ⟨h.1, h.2.1, h.2.2.1, (h.2.2.2.1 (by decide)).1⟩

/-- C7.  The halt procedure is idempotent: a second invocation of
`errHandler` (with any error) on the state left by a first invocation is the
identity — the first invocation always leaves the kill switch set, and
`errHandler` returns immediately when the kill switch is set. -/
theorem C7_halt_idempotent (s : LimiterState) (e1 e2 : Nat) :
    errHandler (errHandler s e1) e2 = errHandler s e1 :=
  errHandler_of_killSwitch (errHandler s e1) e2 (errHandler_killSwitch s e1)

end PRL

namespace PRL

/-- Every sub-batch produced by `saveInBatches` holds at most 10 elements. -/
theorem saveInBatches_chunk_le {α : Type} :
    ∀ (n : Nat) (l : List α), l.length ≤ n →
      ∀ b ∈ saveInBatches l, b.length ≤ 10 := by
  intro n
  induction n with
  | zero =>
    intro l hl b hb
    have h0 : l = [] := List.eq_nil_of_length_eq_zero (Nat.le_zero.mp hl)
    subst h0
    simp [saveInBatches, saveInBatchesGo] at hb
  | succ n ih =>
    intro l hl b hb
    cases l with
    | nil => simp [saveInBatches, saveInBatchesGo] at hb
    | cons x xs =>
      rw [saveInBatches_cons (x :: xs) (by simp)] at hb
      rcases List.mem_cons.mp hb with h | h
      · subst h
        rw [List.length_take]
        omega
      · exact ih ((x :: xs).drop 10)
          (by simp only [List.length_drop, List.length_cons] at *; omega) b h

/-- The sub-batches produced by `saveInBatches` concatenate back to the
input, so every item is submitted exactly once, in order. -/
theorem saveInBatches_join {α : Type} :
    ∀ (n : Nat) (l : List α), l.length ≤ n → (saveInBatches l).flatten = l := by
  intro n
  induction n with
  | zero =>
    intro l hl
    have h0 : l = [] := List.eq_nil_of_length_eq_zero (Nat.le_zero.mp hl)
    subst h0
    rfl
  | succ n ih =>
    intro l hl
    cases l with
    | nil => rfl
    | cons x xs =>
      rw [saveInBatches_cons (x :: xs) (by simp), List.flatten_cons,
        ih ((x :: xs).drop 10)
          (by simp only [List.length_drop, List.length_cons] at *; omega),
        List.take_append_drop]

/-- C8.  The Dispatcher splits every slice into consecutive sub-batches of at
most 10 items whose concatenation is the input slice: every item reaches the
backend exactly once, in the original order. -/
theorem C8_saveInBatches_partition {α : Type} (slice : List α) :
    (saveInBatches slice).flatten = slice
    ∧ ∀ b ∈ saveInBatches slice, b.length ≤ 10 :=
  ⟨saveInBatches_join slice.length slice (Nat.le_refl _),
   saveInBatches_chunk_le slice.length slice (Nat.le_refl _)⟩

/-- C8, witness at a concrete 25-item slice (split 10 / 10 / 5). -/
theorem C8_saveInBatches_partition_witness :
    (saveInBatches (List.range 25)).flatten = List.range 25
    ∧ ∀ b ∈ saveInBatches (List.range 25), b.length ≤ 10 :=
  C8_saveInBatches_partition (List.range 25)

end PRL

namespace PRL

/-- One tick always turns the queue into its tail past the first `maxRate`
items (on an empty queue this is a no-op). -/
theorem tick_saveQueue (t : LimiterState) :
    (rateLimiterTick t).saveQueue = t.saveQueue.drop t.maxRate := by
  rw [rateLimiterTick]
  simp only [killswitch, Bool.false_eq_true, if_false]
  cases hq : t.saveQueue with
  | nil =>
    simp only [hq, List.isEmpty_nil, if_true, List.drop_nil]
    split <;> simp [hq]
  | cons x xs =>
    simp only [hq, List.isEmpty_cons, Bool.false_eq_true, if_false]
    split <;> rfl

/-- One tick never changes `maxRate`. -/
theorem tick_maxRate (t : LimiterState) :
    (rateLimiterTick t).maxRate = t.maxRate := by
  rw [rateLimiterTick]
  simp only [killswitch, Bool.false_eq_true, if_false]
  split
  · split <;> rfl
  · split <;> rfl

/-- Iterated ticks keep `maxRate`. -/
theorem tick_iter_maxRate (s : LimiterState) :
    ∀ k, ((rateLimiterTick)^[k] s).maxRate = s.maxRate := by
  intro k
  induction k with
  | zero => rfl
  | succ k ih => rw [Function.iterate_succ_apply', tick_maxRate, ih]

/-- After `k` ticks the queue is the original queue with its first
`k * maxRate` items removed. -/
theorem tick_iter_saveQueue (s : LimiterState) :
    ∀ k, ((rateLimiterTick)^[k] s).saveQueue
      = s.saveQueue.drop (k * s.maxRate) := by
  intro k
  induction k with
  | zero => simp
  | succ k ih =>
    rw [Function.iterate_succ_apply', tick_saveQueue, ih, tick_iter_maxRate,
      List.drop_drop]
    congr 1
    ring

/-- A tick firing on a non-empty queue dispatches exactly the first
`maxRate` items of the queue. -/
theorem tick_dispatch (t : LimiterState) (h : ¬ t.saveQueue = []) :
    ∃ b, (rateLimiterTick t).savePromise
      = some (.inFlight (t.saveQueue.take t.maxRate) b) := by
  rw [rateLimiterTick]
  simp only [killswitch, Bool.false_eq_true, if_false]
  cases hq : t.saveQueue with
  | nil => exact absurd hq h
  | cons x xs =>
    simp only [List.isEmpty_cons, Bool.false_eq_true, if_false]
    split
    · exact ⟨t.finalizedPromise.isSome, rfl⟩
    · exact ⟨false, rfl⟩

/-- A successful dispatch completion leaves the queue (and the kill switch)
untouched: only `savePromise` and possibly `finalizedPromise` change. -/
theorem dispatchComplete_ok_saveQueue (t : LimiterState) :
    (dispatchComplete okBackend t).saveQueue = t.saveQueue
    ∧ (dispatchComplete okBackend t).killSwitch = t.killSwitch := by
  have hjr : ∀ items, joinedResult okBackend items = none := by
    intro items
    unfold joinedResult okBackend
    rw [show ((saveInBatches items).filterMap fun _ => (none : Option Nat))
        = [] from ?hnil]
    · rfl
    case hnil =>
      induction saveInBatches items with
      | nil => rfl
      | cons c cs ih => rw [List.filterMap_cons]; exact ih
  cases hsp : t.savePromise with
  | none => simp [dispatchComplete, hsp]
  | some sp =>
    cases sp with
    | resolved => simp [dispatchComplete, hsp]
    | inFlight items notify =>
      cases notify with
      | false => simp [dispatchComplete, hsp, hjr]
      | true =>
        cases hfp : t.finalizedPromise with
        | none => simp [dispatchComplete, hsp, hjr, hfp]
        | some fp => cases fp <;> simp [dispatchComplete, hsp, hjr, hfp]

/-- `n ≤ ticksToDrain n r * r` for positive `r`: the ceiling of `n / r`
ticks remove at least `n` items. -/
theorem ticksToDrain_mul_ge (n r : Nat) (hr : 0 < r) :
    n ≤ ticksToDrain n r * r := by
  rcases Nat.eq_zero_or_pos n with h0 | h0
  · simp [h0]
  · unfold ticksToDrain
    obtain ⟨a, rfl⟩ : ∃ a, n = a + 1 := ⟨n - 1, by omega⟩
    have hnr : a + 1 + r - 1 = a + r := by omega
    rw [hnr, Nat.add_div_right a hr]
    have h1 : a % r < r := Nat.mod_lt a hr
    have h2 : r * (a / r) + a % r = a := Nat.div_add_mod a r
    have h3 : (a / r + 1) * r = r * (a / r) + r := by ring
    omega

/-- Fewer than `ticksToDrain n r` ticks remove fewer than `n` items. -/
theorem ticksToDrain_mul_lt (n r k : Nat) (hr : 0 < r) (hn : 0 < n)
    (hk : k < ticksToDrain n r) : k * r < n := by
  obtain ⟨a, rfl⟩ : ∃ a, n = a + 1 := ⟨n - 1, by omega⟩
  unfold ticksToDrain at hk
  have hnr : a + 1 + r - 1 = a + r := by omega
  rw [hnr, Nat.add_div_right a hr] at hk
  have h1 : k ≤ a / r := by omega
  have h2 : k * r ≤ (a / r) * r := Nat.mul_le_mul_right r h1
  have h3 : (a / r) * r ≤ a := Nat.div_mul_le_self a r
  omega

end PRL

namespace PRL

/-- C9.  For a positive `maxRate` and a non-empty queue, under an
always-succeeding backend: each pacing tick removes exactly the first
`min(maxRate, queue length)` items (they become the dispatched slice), the
queue is empty after `ticksToDrain` (= `ceil(n / maxRate)`) ticks and
non-empty after any fewer, and a successful dispatch completion between
ticks never touches the queue or the kill switch. -/
theorem C9_ticks_drain (s : LimiterState) (hr : 0 < s.maxRate)
    (hn : 0 < s.saveQueue.length) :
    (∀ k, ((rateLimiterTick)^[k] s).saveQueue
        = s.saveQueue.drop (k * s.maxRate))
    ∧ (∀ k, ¬ ((rateLimiterTick)^[k] s).saveQueue = [] →
        (((rateLimiterTick)^[k] s).saveQueue.take s.maxRate).length
          = min s.maxRate ((rateLimiterTick)^[k] s).saveQueue.length
        ∧ ∃ b, ((rateLimiterTick)^[k + 1] s).savePromise
            = some (.inFlight
                (((rateLimiterTick)^[k] s).saveQueue.take s.maxRate) b))
    ∧ ((rateLimiterTick)^[ticksToDrain s.saveQueue.length s.maxRate]
        s).saveQueue = []
    ∧ (∀ k, k < ticksToDrain s.saveQueue.length s.maxRate →
        ¬ ((rateLimiterTick)^[k] s).saveQueue = [])
    ∧ (∀ t, (dispatchComplete okBackend t).saveQueue = t.saveQueue
        ∧ (dispatchComplete okBackend t).killSwitch = t.killSwitch) := by
  refine ⟨tick_iter_saveQueue s, ?_, ?_, ?_, dispatchComplete_ok_saveQueue⟩
  · intro k hk
    constructor
    · rw [List.length_take]
    · rw [Function.iterate_succ_apply']
      have hd := tick_dispatch ((rateLimiterTick)^[k] s) hk
      rw [tick_iter_maxRate] at hd
      exact hd
  · rw [tick_iter_saveQueue]
    rw [List.drop_eq_nil_iff]
    exact ticksToDrain_mul_ge s.saveQueue.length s.maxRate hr
  · intro k hk
    rw [tick_iter_saveQueue, List.drop_eq_nil_iff]
    exact Nat.not_le.mpr
      (ticksToDrain_mul_lt s.saveQueue.length s.maxRate k hr hn hk)

/-- C9, witness at the spec scenario (`maxRate = 2`, five items): the drain
takes `ticksToDrain 5 2 = 3` ticks. -/
theorem C9_ticks_drain_witness :
    ticksToDrain drainState.saveQueue.length drainState.maxRate = 3
    ∧ ((rateLimiterTick)^[ticksToDrain drainState.saveQueue.length
        drainState.maxRate] drainState).saveQueue = []
    ∧ ¬ ((rateLimiterTick)^[2] drainState).saveQueue = [] :=
  ⟨by decide,
   (C9_ticks_drain drainState (by decide) (by decide)).2.2.1,
   (C9_ticks_drain drainState (by decide) (by decide)).2.2.2.1 2 (by decide)⟩

end PRL
